import Mathlib

/-!
Shallow embedding of `src/color.rs`: the color/style resolution module of a
directory-listing tool.  The module maps a semantic classification (`Elem`) of
a filesystem entry, and optionally its path, to a terminal style, combining a
built-in color table with an optional external override source (`LsColors`).

External crate types (`ansi_term::{Colour, Style, ANSIString}` and
`lscolors::{Indicator, LsColors}`) are modelled by their interface as the
module uses it.  The override source's two lookups are modelled as returning
the `ansi_term` style directly: the module always post-composes the source's
result with `lscolors::Style::to_ansi_term_style`, so quantifying over the
composed map `Indicator → Option Style` (resp. `Path → Option Style`) is
equivalent to quantifying over the source.
-/

namespace LsdColor

/-- `ansi_term::Colour`.  The module itself only constructs `Colour::Fixed`,
but the override source can produce any variant. -/
inductive Colour where
  | Black
  | Red
  | Green
  | Yellow
  | Blue
  | Purple
  | Cyan
  | White
  | Fixed (n : Nat)
  | RGB (r g b : Nat)
  deriving DecidableEq

/-- `ansi_term::Style`: a foreground and background colour plus formatting
flags.  `Style::default()` has every field empty/false. -/
structure Style where
  foreground : Option Colour := none
  background : Option Colour := none
  is_bold : Bool := false
  is_dimmed : Bool := false
  is_italic : Bool := false
  is_underline : Bool := false
  is_blink : Bool := false
  is_reverse : Bool := false
  is_hidden : Bool := false
  is_strikethrough : Bool := false
  deriving DecidableEq

/-- `ansi_term::Style::default()`. -/
def Style.default : Style := {}

/-- `ansi_term::Style::fg`: set the foreground colour. -/
def Style.fg (s : Style) (c : Colour) : Style := { s with foreground := some c }

/-- `ansi_term::Style::on`: set the background colour. -/
def Style.on (s : Style) (c : Colour) : Style := { s with background := some c }

/-- `ansi_term::ANSIString` (`ColoredString` in the module): a style applied
to a piece of text by `Style::paint`. -/
structure ColoredString where
  style : Style
  content : String
  deriving DecidableEq

/-- `ansi_term::Style::paint`. -/
def Style.paint (s : Style) (input : String) : ColoredString := ⟨s, input⟩

/-- `lscolors::Indicator`: the closed set of two-letter `LS_COLORS` type
codes. -/
inductive Indicator where
  | Normal
  | RegularFile
  | Directory
  | SymbolicLink
  | FIFO
  | Socket
  | Door
  | BlockDevice
  | CharacterDevice
  | OrphanedSymbolicLink
  | Setuid
  | Setgid
  | Sticky
  | OtherWritable
  | StickyAndOtherWritable
  | ExecutableFile
  | MissingFile
  | MultipleHardLinks
  | LeftCode
  | RightCode
  | EndCode
  | Reset
  deriving DecidableEq

/-- `lscolors::Indicator::from`: parse a two-letter code, `none` on an
unrecognized string. -/
def Indicator.fromStr (s : String) : Option Indicator :=
  match s with
  | "no" => some Indicator.Normal
  | "fi" => some Indicator.RegularFile
  | "di" => some Indicator.Directory
  | "ln" => some Indicator.SymbolicLink
  | "pi" => some Indicator.FIFO
  | "so" => some Indicator.Socket
  | "do" => some Indicator.Door
  | "bd" => some Indicator.BlockDevice
  | "cd" => some Indicator.CharacterDevice
  | "or" => some Indicator.OrphanedSymbolicLink
  | "su" => some Indicator.Setuid
  | "sg" => some Indicator.Setgid
  | "st" => some Indicator.Sticky
  | "ow" => some Indicator.OtherWritable
  | "tw" => some Indicator.StickyAndOtherWritable
  | "ex" => some Indicator.ExecutableFile
  | "mi" => some Indicator.MissingFile
  | "mh" => some Indicator.MultipleHardLinks
  | "lc" => some Indicator.LeftCode
  | "rc" => some Indicator.RightCode
  | "ec" => some Indicator.EndCode
  | "rs" => some Indicator.Reset
  | _ => none

/-- A filesystem path, opaque to this module. -/
abbrev Path := String

/-- The external `lscolors::LsColors` override source, modelled by the two
lookup capabilities the module uses (already composed with
`lscolors::Style::to_ansi_term_style`, see the file header). -/
structure LsColors where
  style_for_indicator : Indicator → Option Style
  style_for_path : Path → Option Style

/-- An override source with nothing registered: every lookup misses.  This is
the documented default of the external source when unconfigured. -/
def LsColors.empty : LsColors := ⟨fun _ => none, fun _ => none⟩

/-- `Elem`: the closed classification type of `src/color.rs`. -/
inductive Elem where
  | File (exec uid : Bool)
  | SymLink
  | BrokenSymLink
  | Dir (uid : Bool)
  | Pipe
  | BlockDevice
  | CharDevice
  | Socket
  | Special
  | Read
  | Write
  | Exec
  | ExecSticky
  | NoAccess
  | DayOld
  | HourOld
  | Older
  | User
  | Group
  | NonFile
  | FileLarge
  | FileMedium
  | FileSmall
  | INode (valid : Bool)
  deriving DecidableEq

/-- `Elem::has_suid`: true exactly on `Dir { uid: true }` and
`File { uid: true, .. }`. -/
def Elem.has_suid (e : Elem) : Bool :=
  match e with
  | Elem.Dir true => true
  | Elem.File _ true => true
  | _ => false

/-- `Theme`: the three construction-time modes. -/
inductive Theme where
  | NoColor
  | Default
  | NoLscolors
  deriving DecidableEq

/-- `HashMap<Elem, Colour>` modelled as a partial function; `insert`
overwrites any earlier binding of the key. -/
def ElemMap := Elem → Option Colour

/-- `HashMap::new()`. -/
def ElemMap.emptyMap : ElemMap := fun _ => none

/-- `HashMap::insert`. -/
def ElemMap.insert (m : ElemMap) (k : Elem) (v : Colour) : ElemMap :=
  fun e => if e = k then some v else m e

/-- `Colors::get_light_theme_colour_map`: the built-in table.  The source
performs a sequence of `HashMap::insert` calls; folding the same
key-value sequence over `insert` reproduces it (a later insert of the same
key would overwrite, though no key repeats here). -/
def get_light_theme_colour_map : ElemMap :=
  [ (Elem.User, Colour.Fixed 6),
    (Elem.Group, Colour.Fixed 7),
    (Elem.Read, Colour.Fixed 2),
    (Elem.Write, Colour.Fixed 11),
    (Elem.Exec, Colour.Fixed 9),
    (Elem.ExecSticky, Colour.Fixed 13),
    (Elem.NoAccess, Colour.Fixed 7),
    (Elem.File false false, Colour.Fixed 11),
    (Elem.File false true, Colour.Fixed 11),
    (Elem.File true false, Colour.Fixed 2),
    (Elem.File true true, Colour.Fixed 2),
    (Elem.Dir true, Colour.Fixed 4),
    (Elem.Dir false, Colour.Fixed 4),
    (Elem.Pipe, Colour.Fixed 6),
    (Elem.SymLink, Colour.Fixed 6),
    (Elem.BrokenSymLink, Colour.Fixed 9),
    (Elem.BlockDevice, Colour.Fixed 6),
    (Elem.CharDevice, Colour.Fixed 3),
    (Elem.Socket, Colour.Fixed 6),
    (Elem.Special, Colour.Fixed 6),
    (Elem.HourOld, Colour.Fixed 7),
    (Elem.DayOld, Colour.Fixed 7),
    (Elem.Older, Colour.Fixed 7),
    (Elem.NonFile, Colour.Fixed 7),
    (Elem.FileSmall, Colour.Fixed 3),
    (Elem.FileMedium, Colour.Fixed 5),
    (Elem.FileLarge, Colour.Fixed 9),
    (Elem.INode true, Colour.Fixed 13),
    (Elem.INode false, Colour.Fixed 7) ].foldl
    (fun m kv => m.insert kv.1 kv.2) ElemMap.emptyMap

/-- `Colors::get_indicator_from_elem`.  The source takes `&self` but never
reads it, so the receiver is dropped here. -/
def get_indicator_from_elem (elem : Elem) : Option Indicator :=
  let indicator_string : Option String :=
    match elem with
    | Elem.File exec uid =>
      match exec, uid with
      | _, true => none
      | true, false => some "ex"
      | false, false => some "fi"
    | Elem.Dir uid => if uid then none else some "di"
    | Elem.SymLink => some "ln"
    | Elem.Pipe => some "pi"
    | Elem.Socket => some "so"
    | Elem.BlockDevice => some "bd"
    | Elem.CharDevice => some "cd"
    | Elem.BrokenSymLink => some "or"
    | Elem.INode valid =>
      match valid with
      | true => some "so"
      | false => some "no"
    | _ => none
  match indicator_string with
  | some ids => Indicator.fromStr ids
  | none => none

/-- The `Colors` resolver state: an optional built-in table and an optional
override source. -/
structure Colors where
  colors : Option ElemMap
  lscolors : Option LsColors

/-- `Colors::new`.  `env` stands for the override source the process
environment yields, i.e. the result of
`LsColors::from_env().unwrap_or_default()`; it is consulted only in `Default`
mode. -/
def Colors.new (theme : Theme) (env : LsColors) : Colors :=
  { colors :=
      match theme with
      | Theme.NoColor => none
      | Theme.Default => some get_light_theme_colour_map
      | Theme.NoLscolors => some get_light_theme_colour_map
    lscolors :=
      match theme with
      | Theme.NoColor => none
      | Theme.Default => some env
      | Theme.NoLscolors => none }

/-- `Colors::style_default`.  The `HashMap` index `colors[elem]` aborts when
the key is missing; that abort is modelled as `none`, every normal return as
`some _`. -/
def Colors.style_default (c : Colors) (elem : Elem) : Option Style :=
  match c.colors with
  | some colors =>
    match colors elem with
    | some col =>
      let style_fg := Style.default.fg col
      some (if elem.has_suid then style_fg.on (Colour.Fixed 124) else style_fg)
    | none => none
  | none => some Style.default

/-- `Colors::style`. -/
def Colors.style (c : Colors) (elem : Elem) : Option Style :=
  match c.lscolors with
  | some lscolors =>
    match get_indicator_from_elem elem with
    | some ind => some ((lscolors.style_for_indicator ind).getD Style.default)
    | none => c.style_default elem
  | none => c.style_default elem

/-- `Colors::colorize`. -/
def Colors.colorize (c : Colors) (input : String) (elem : Elem) :
    Option ColoredString :=
  (c.style elem).map fun s => s.paint input

/-- `Colors::style_from_path`. -/
def Colors.style_from_path (c : Colors) (path : Path) : Option Style :=
  match c.lscolors with
  | some lscolors => lscolors.style_for_path path
  | none => none

/-- `Colors::colorize_using_path`. -/
def Colors.colorize_using_path (c : Colors) (input : String) (path : Path)
    (elem : Elem) : Option ColoredString :=
  match c.style_from_path path with
  | some style_from_path => some (style_from_path.paint input)
  | none => c.colorize input elem

/-- An override source registering a style only for the path "p": used to
exercise the path-based lookup. -/
def samplePathSource : LsColors :=
  ⟨fun _ => none,
   fun p => if p = "p" then some (Style.default.fg (Colour.Fixed 1)) else none⟩

/-- Helper: `Colors::style` always returns a style for every theme,
environment and classification (the abort branch of the table lookup is
never reached). -/
theorem style_isSome (theme : Theme) (env : LsColors) (elem : Elem) :
    ((Colors.new theme env).style elem).isSome = true := by
  cases theme <;>
    cases elem <;>
      first
        | (rename_i x y; cases x <;> cases y <;> rfl)
        | (rename_i x; cases x <;> rfl)
        | rfl

/-- Claim C1, counterexample.  In Default mode, for `Elem.SymLink` (indicator
"ln") and an override source with nothing registered under that indicator,
`style` returns the empty default style, whose foreground is NOT the
built-in table's entry `Fixed 6`: the code does not fall back to the table
on an indicator miss. -/
theorem indicator_miss_not_table :
    get_indicator_from_elem Elem.SymLink = some Indicator.SymbolicLink ∧
    LsColors.empty.style_for_indicator Indicator.SymbolicLink = none ∧
    get_light_theme_colour_map Elem.SymLink = some (Colour.Fixed 6) ∧
    (Colors.new Theme.Default LsColors.empty).style Elem.SymLink
      = some Style.default ∧
    Style.default.foreground ≠ some (Colour.Fixed 6) := by decide

/-- Claim C1, amended.  In Default mode, for every classification that has an
indicator code, if the override source has no style registered under that
indicator, `colorize` applies the empty default style (empty foreground and
background), not the built-in table's entry. -/
theorem indicator_miss_default_style (env : LsColors) (input : String)
    (elem : Elem) (i : Indicator)
    (h1 : get_indicator_from_elem elem = some i)
    (h2 : env.style_for_indicator i = none) :
    (Colors.new Theme.Default env).colorize input elem
      = some (Style.default.paint input) := by
  show ((match get_indicator_from_elem elem with
         | some ind => some ((env.style_for_indicator ind).getD Style.default)
         | none => (Colors.new Theme.Default env).style_default elem) :
        Option Style).map
        (fun s => s.paint input) = some (Style.default.paint input)
  rw [h1]
  show (some ((env.style_for_indicator i).getD Style.default)).map
        (fun s => s.paint input) = some (Style.default.paint input)
  rw [h2]
  rfl

/-- Claim C1, witness for the amended theorem at `Elem.SymLink` and the empty
override source. -/
theorem indicator_miss_default_style_witness :
    get_indicator_from_elem Elem.SymLink = some Indicator.SymbolicLink ∧
    LsColors.empty.style_for_indicator Indicator.SymbolicLink = none ∧
    (Colors.new Theme.Default LsColors.empty).colorize "x" Elem.SymLink
      = some (Style.default.paint "x") :=
  ⟨rfl, rfl,
   indicator_miss_default_style LsColors.empty "x" Elem.SymLink
     Indicator.SymbolicLink rfl rfl⟩

/-- Claim C2.  Whenever a style is resolved from the built-in table (the
`style_default` path, in Default mode and in table-only mode), it carries the
fixed background highlight `Fixed 124` exactly when `has_suid` holds, and
`has_suid` holds exactly on `Dir {uid: true}` and `File {uid: true, _}`. -/
theorem table_style_suid_highlight (env : LsColors) (elem : Elem) :
    (∃ s, (Colors.new Theme.Default env).style_default elem = some s ∧
      ((s.background = some (Colour.Fixed 124)) ↔ elem.has_suid = true)) ∧
    (∃ s, (Colors.new Theme.NoLscolors env).style_default elem = some s ∧
      ((s.background = some (Colour.Fixed 124)) ↔ elem.has_suid = true)) ∧
    (elem.has_suid = true ↔
      (elem = Elem.Dir true ∨ elem = Elem.File false true ∨
        elem = Elem.File true true)) := by
  cases elem <;>
    first
      | (rename_i x y; cases x <;> cases y <;>
          exact ⟨⟨_, rfl, by decide⟩, ⟨_, rfl, by decide⟩, by decide⟩)
      | (rename_i x; cases x <;>
          exact ⟨⟨_, rfl, by decide⟩, ⟨_, rfl, by decide⟩, by decide⟩)
      | exact ⟨⟨_, rfl, by decide⟩, ⟨_, rfl, by decide⟩, by decide⟩

/-- Claim C3.  In Default mode, `colorize` on `Dir {uid: true}` returns the
table-resolved style (`Fixed 4` foreground) with the `Fixed 124` highlight,
for EVERY override source `env` — in particular whatever `env` registers
under the "di" indicator is ignored, since `Dir {uid: true}` has no
indicator code. -/
theorem dir_suid_ignores_override (env : LsColors) (input : String) :
    get_indicator_from_elem (Elem.Dir true) = none ∧
    (Colors.new Theme.Default env).colorize input (Elem.Dir true)
      = some (((Style.default.fg (Colour.Fixed 4)).on
          (Colour.Fixed 124)).paint input) := ⟨rfl, rfl⟩

/-- Claim C4.  When the override source returns a style for the path,
`colorize_using_path` applies exactly that style verbatim — no highlight
augmentation, no indicator mapping, no built-in table — whatever the
classification is. -/
theorem path_override_verbatim (env : LsColors) (input : String) (path : Path)
    (elem : Elem) (s : Style)
    (h : env.style_for_path path = some s) :
    (Colors.new Theme.Default env).colorize_using_path input path elem
      = some (s.paint input) := by
  show (match env.style_for_path path with
        | some st => some (st.paint input)
        | none => (Colors.new Theme.Default env).colorize input elem)
      = some (s.paint input)
  rw [h]

/-- Claim C4, witness: a source registering `Fixed 1` for path "p" wins even
for `Dir {uid: true}`, which `colorize` alone would style `Fixed 4` with the
`Fixed 124` highlight. -/
theorem path_override_verbatim_witness :
    samplePathSource.style_for_path "p"
      = some (Style.default.fg (Colour.Fixed 1)) ∧
    (Colors.new Theme.Default samplePathSource).colorize_using_path
        "x" "p" (Elem.Dir true)
      = some ((Style.default.fg (Colour.Fixed 1)).paint "x") :=
  ⟨by decide,
   path_override_verbatim samplePathSource "x" "p" (Elem.Dir true)
     (Style.default.fg (Colour.Fixed 1)) (by decide)⟩

/-- Claim C5.  When the override source returns no style for the path,
`colorize_using_path` is exactly `colorize` on the same text and
classification. -/
theorem path_miss_eq_colorize (env : LsColors) (input : String) (path : Path)
    (elem : Elem)
    (h : env.style_for_path path = none) :
    (Colors.new Theme.Default env).colorize_using_path input path elem
      = (Colors.new Theme.Default env).colorize input elem := by
  show (match env.style_for_path path with
        | some st => some (st.paint input)
        | none => (Colors.new Theme.Default env).colorize input elem)
      = (Colors.new Theme.Default env).colorize input elem
  rw [h]

/-- Claim C5, witness at the empty override source. -/
theorem path_miss_eq_colorize_witness :
    LsColors.empty.style_for_path "p" = none ∧
    (Colors.new Theme.Default LsColors.empty).colorize_using_path
        "x" "p" Elem.Pipe
      = (Colors.new Theme.Default LsColors.empty).colorize "x" Elem.Pipe :=
  ⟨rfl, path_miss_eq_colorize LsColors.empty "x" "p" Elem.Pipe rfl⟩

/-- Claim C6.  In table-only mode, for every classification, `colorize`
returns a styled string whose foreground is exactly the built-in table's
entry for that classification. -/
theorem table_only_foreground (env : LsColors) (elem : Elem) (input : String) :
    ∃ cs col, (Colors.new Theme.NoLscolors env).colorize input elem = some cs ∧
      get_light_theme_colour_map elem = some col ∧
      cs.style.foreground = some col := by
  cases elem <;>
    first
      | (rename_i x y; cases x <;> cases y <;> exact ⟨_, _, rfl, rfl, rfl⟩)
      | (rename_i x; cases x <;> exact ⟨_, _, rfl, rfl, rfl⟩)
      | exact ⟨_, _, rfl, rfl, rfl⟩

/-- Claim C7.  The built-in table has an entry for every classification, and
consequently `colorize` and `colorize_using_path` return a value (never hit
the modelled abort of a missing table entry) in every mode, for every
override source, classification, text and path. -/
theorem table_complete_never_aborts (theme : Theme) (env : LsColors)
    (elem : Elem) (input : String) (path : Path) :
    get_light_theme_colour_map elem ≠ none ∧
    ((Colors.new theme env).colorize input elem).isSome = true ∧
    ((Colors.new theme env).colorize_using_path input path elem).isSome
      = true := by
  have hco : ((Colors.new theme env).colorize input elem).isSome = true := by
    have h := style_isSome theme env elem
    unfold Colors.colorize
    cases hs : (Colors.new theme env).style elem with
    | none => rw [hs] at h; exact absurd h (by decide)
    | some s => rfl
  refine ⟨?_, hco, ?_⟩
  · cases elem <;>
      first
        | (rename_i x y; cases x <;> cases y <;> decide)
        | (rename_i x; cases x <;> decide)
        | decide
  · unfold Colors.colorize_using_path
    cases hp : (Colors.new theme env).style_from_path path with
    | none => exact hco
    | some s => rfl

/-- Claim C8.  The indicator-code mapping is exactly the fixed table of the
specification: the eleven keyed variants map to the listed two-letter codes
(both `INode` variants included, `INode {valid: true}` to "so"), and every
other variant — in particular `File {_, uid: true}` and `Dir {uid: true}` —
has no indicator code. -/
theorem indicator_mapping_exact :
    (get_indicator_from_elem (Elem.File false false)
        = some Indicator.RegularFile ∧
      Indicator.fromStr "fi" = some Indicator.RegularFile) ∧
    (get_indicator_from_elem (Elem.File true false)
        = some Indicator.ExecutableFile ∧
      Indicator.fromStr "ex" = some Indicator.ExecutableFile) ∧
    (get_indicator_from_elem (Elem.Dir false) = some Indicator.Directory ∧
      Indicator.fromStr "di" = some Indicator.Directory) ∧
    (get_indicator_from_elem Elem.SymLink = some Indicator.SymbolicLink ∧
      Indicator.fromStr "ln" = some Indicator.SymbolicLink) ∧
    (get_indicator_from_elem Elem.Pipe = some Indicator.FIFO ∧
      Indicator.fromStr "pi" = some Indicator.FIFO) ∧
    (get_indicator_from_elem Elem.Socket = some Indicator.Socket ∧
      Indicator.fromStr "so" = some Indicator.Socket) ∧
    (get_indicator_from_elem Elem.BlockDevice = some Indicator.BlockDevice ∧
      Indicator.fromStr "bd" = some Indicator.BlockDevice) ∧
    (get_indicator_from_elem Elem.CharDevice
        = some Indicator.CharacterDevice ∧
      Indicator.fromStr "cd" = some Indicator.CharacterDevice) ∧
    (get_indicator_from_elem Elem.BrokenSymLink
        = some Indicator.OrphanedSymbolicLink ∧
      Indicator.fromStr "or" = some Indicator.OrphanedSymbolicLink) ∧
    (get_indicator_from_elem (Elem.INode true) = some Indicator.Socket ∧
      Indicator.fromStr "so" = some Indicator.Socket) ∧
    (get_indicator_from_elem (Elem.INode false) = some Indicator.Normal ∧
      Indicator.fromStr "no" = some Indicator.Normal) ∧
    (∀ b, get_indicator_from_elem (Elem.File b true) = none) ∧
    get_indicator_from_elem (Elem.Dir true) = none ∧
    get_indicator_from_elem Elem.Special = none ∧
    get_indicator_from_elem Elem.Read = none ∧
    get_indicator_from_elem Elem.Write = none ∧
    get_indicator_from_elem Elem.Exec = none ∧
    get_indicator_from_elem Elem.ExecSticky = none ∧
    get_indicator_from_elem Elem.NoAccess = none ∧
    get_indicator_from_elem Elem.DayOld = none ∧
    get_indicator_from_elem Elem.HourOld = none ∧
    get_indicator_from_elem Elem.Older = none ∧
    get_indicator_from_elem Elem.User = none ∧
    get_indicator_from_elem Elem.Group = none ∧
    get_indicator_from_elem Elem.NonFile = none ∧
    get_indicator_from_elem Elem.FileLarge = none ∧
    get_indicator_from_elem Elem.FileMedium = none ∧
    get_indicator_from_elem Elem.FileSmall = none := by decide

/-- Claim C9.  In no-color mode, `colorize` and `colorize_using_path` return
the text painted with the empty default style (unstyled), for every
classification and path. -/
theorem nocolor_unstyled (env : LsColors) (input : String) (path : Path)
    (elem : Elem) :
    (Colors.new Theme.NoColor env).colorize input elem
      = some (Style.default.paint input) ∧
    (Colors.new Theme.NoColor env).colorize_using_path input path elem
      = some (Style.default.paint input) := ⟨rfl, rfl⟩

/-- Claim C10.  In table-only mode, `colorize_using_path` ignores its path
argument: it equals `colorize` on the same text and classification, hence
any two paths give the same output. -/
theorem table_only_path_ignored (env : LsColors) (input : String)
    (p1 p2 : Path) (elem : Elem) :
    (Colors.new Theme.NoLscolors env).colorize_using_path input p1 elem
      = (Colors.new Theme.NoLscolors env).colorize input elem ∧
    (Colors.new Theme.NoLscolors env).colorize_using_path input p1 elem
      = (Colors.new Theme.NoLscolors env).colorize_using_path input p2 elem :=
  ⟨rfl, rfl⟩

end LsdColor
